import Mathlib

/-!
Verification of the todo-wallpaper rendering/caching pipeline
(`todo_wallpaper_module.py`): task parsing, word wrap, truncation,
progress fraction, fingerprint-based AI-image cache, debounce.
-/

namespace Todo

/-- A parsed todo item, mirroring the Python dict with keys
`text` (string) and `completed` (bool) built in `parse_todo_file`. -/
structure Task where
  text : String
  completed : Bool
deriving DecidableEq

/-- Python `str.strip()`: remove whitespace from both ends.
Embedded structurally on the character list. -/
def pyStrip (s : String) : String :=
  String.mk (((s.data.dropWhile Char.isWhitespace).reverse.dropWhile Char.isWhitespace).reverse)

/-- One iteration of the line-parsing loop in `parse_todo_file`
(`todo_wallpaper_module.py` lines 217-229): strip the line, skip it if
blank, otherwise classify by its leading marker.  Python's `startswith`
and slicing act on code points, embedded here on `String.data`. -/
def parseLine (raw : String) : Option Task :=
  let line := pyStrip raw
  if line.data = [] then none
  else if ("[x]".data).isPrefixOf line.data then
    some ⟨pyStrip (String.mk (line.data.drop 3)), true⟩
  else if ("[ ]".data).isPrefixOf line.data then
    some ⟨pyStrip (String.mk (line.data.drop 3)), false⟩
  else if ("x ".data).isPrefixOf line.data then
    some ⟨pyStrip (String.mk (line.data.drop 2)), true⟩
  else some ⟨line, false⟩

/-- The whole parsing loop of `parse_todo_file` applied to the file's
lines: each line contributes at most one task, in input order. -/
def parseLines (lines : List String) : List Task :=
  lines.filterMap parseLine

/-- Outcome of opening and iterating over the todo file in
`parse_todo_file`: the file may be missing (`Path.exists` is false), it
may be read completely, or an exception may be raised after some prefix
of the lines has already been consumed by the loop (an error on `open`
is `err []`). -/
inductive ReadOutcome where
  | missing : ReadOutcome
  | ok (lines : List String) : ReadOutcome
  | err (linesBeforeError : List String) : ReadOutcome
deriving DecidableEq

/-- `parse_todo_file` (`todo_wallpaper_module.py` lines 211-232), as a
function of the read outcome.  Returns the task list together with
whether the `except` branch reported an error.  A missing file skips
the body silently; an exception is caught (`except Exception`), printed,
and the tasks accumulated before the failure are returned.  The function
is total: no exception propagates to the caller. -/
def parse_todo_file : ReadOutcome → List Task × Bool
  | .missing => ([], false)
  | .ok lines => (parseLines lines, false)
  | .err pre => (parseLines pre, true)

/-- The line classification written from the spec's words (§4.1): a line
starting with the 3-character marker is recognized by comparing its
first three characters with the marker, and the text is the remainder
after the marker, trimmed. -/
def parseLineSpec (raw : String) : Option Task :=
  let t := pyStrip raw
  if t.data = [] then none
  else if t.data.take 3 = "[x]".data then
    some ⟨pyStrip (String.mk (t.data.drop 3)), true⟩
  else if t.data.take 3 = "[ ]".data then
    some ⟨pyStrip (String.mk (t.data.drop 3)), false⟩
  else if t.data.take 2 = "x ".data then
    some ⟨pyStrip (String.mk (t.data.drop 2)), true⟩
  else some ⟨t, false⟩

theorem isPrefixOf_iff_take (p l : List Char) :
    p.isPrefixOf l = true ↔ l.take p.length = p := by
  rw [List.isPrefixOf_iff_prefix, List.prefix_iff_eq_take]
  exact ⟨fun h => h.symm, fun h => h.symm⟩

theorem parseLine_eq_spec (raw : String) : parseLine raw = parseLineSpec raw := by
  unfold parseLine parseLineSpec
  have h3x : (("[x]".data).isPrefixOf (pyStrip raw).data) = true ↔
      (pyStrip raw).data.take 3 = "[x]".data := by
    simpa using isPrefixOf_iff_take ("[x]".data) (pyStrip raw).data
  have h3s : (("[ ]".data).isPrefixOf (pyStrip raw).data) = true ↔
      (pyStrip raw).data.take 3 = "[ ]".data := by
    simpa using isPrefixOf_iff_take ("[ ]".data) (pyStrip raw).data
  have h2 : (("x ".data).isPrefixOf (pyStrip raw).data) = true ↔
      (pyStrip raw).data.take 2 = "x ".data := by
    simpa using isPrefixOf_iff_take ("x ".data) (pyStrip raw).data
  simp only [h3x, h3s, h2]

/-- C2: each non-blank trimmed line is classified by its leading marker
exactly as the spec states (the parser agrees with the spec-worded
classification on every line, hence blank lines emit nothing and order
is preserved), and the spec's concrete example parses as stated. -/
theorem parse_matches_line_spec :
    (∀ lines : List String, parseLines lines = lines.filterMap parseLineSpec) ∧
    parse_todo_file (.ok ["[x] Buy milk", "[ ] Call mom", "", "x Walk dog"]) =
      ([⟨"Buy milk", true⟩, ⟨"Call mom", false⟩, ⟨"Walk dog", true⟩], false) := by
  constructor
  · intro lines
    unfold parseLines
    exact List.filterMap_congr (fun x _ => parseLine_eq_spec x)
  · decide

/-- C8 counterexample: an I/O (or decode) error raised while iterating
over the file, after the line "x Walk dog" was already consumed, makes
`parse_todo_file` return that parsed task — not an empty task list. -/
theorem parse_read_error_counterexample :
    ¬((parse_todo_file (.err ["x Walk dog"])).1 = [] ∧
      (parse_todo_file (.err ["x Walk dog"])).2 = true) := by
  decide

/-- C8 amended: `parse_todo_file` never raises (it is total); a missing
file yields an empty task list with no error report; a read error is
reported and the tasks parsed from the lines read before the failure
are returned — an empty list exactly when the failure happens on open,
before any line is consumed. -/
theorem parse_read_failure_behavior :
    parse_todo_file .missing = ([], false) ∧
    (∀ pre, parse_todo_file (.err pre) = (parseLines pre, true)) ∧
    parse_todo_file (.err []) = ([], true) :=
  ⟨rfl, fun _ => rfl, rfl⟩

/-! ## Word wrap (create_task_module, lines 328-343) -/

/-- Helper for Python `text.split()`: walk the characters, accumulating
the current word reversed; whitespace closes the current word. -/
def splitWsAux : List Char → List Char → List (List Char)
  | [], cur => if cur = [] then [] else [cur.reverse]
  | c :: cs, cur =>
    if c.isWhitespace then
      (if cur = [] then splitWsAux cs [] else cur.reverse :: splitWsAux cs [])
    else splitWsAux cs (c :: cur)

/-- Python `text.split()` with no argument: split on whitespace runs,
discarding empty pieces. -/
def pySplit (s : String) : List String :=
  (splitWsAux s.data []).map String.mk

/-- Python `' '.join(words)`. -/
def joinSp : List String → String
  | [] => ""
  | [w] => w
  | w :: ws => w ++ " " ++ joinSp ws

/-- The greedy word-wrap loop of `create_task_module`
(`todo_wallpaper_module.py` lines 330-343), abstracted over the text
width measure `W` (the source measures `draw.textbbox` widths of the
candidate line).  `lines` and `cur` are the loop's `lines` and
`current_line` accumulators. -/
def wrapGo (W : String → Nat) (maxW : Nat) :
    List String → List String → List String → List String
  | [], lines, cur => if cur = [] then lines else lines ++ [joinSp cur]
  | w :: ws, lines, cur =>
    if W (joinSp (cur ++ [w])) ≤ maxW then wrapGo W maxW ws lines (cur ++ [w])
    else if cur = [] then wrapGo W maxW ws lines [w]
    else wrapGo W maxW ws (lines ++ [joinSp cur]) [w]

/-- The word-wrap routine: `words = text.split()` followed by the greedy
packing loop. -/
def wrapWords (W : String → Nat) (maxW : Nat) (words : List String) : List String :=
  wrapGo W maxW words [] []

/-- The whitespace-normalized form of a text: its words joined by
single spaces. -/
def normalizeWs (text : String) : String :=
  joinSp (pySplit text)

@[simp] theorem joinSp_nil : joinSp [] = "" := rfl

@[simp] theorem joinSp_singleton (w : String) : joinSp [w] = w := rfl

theorem joinSp_cons (a : String) (l : List String) (h : l ≠ []) :
    joinSp (a :: l) = a ++ " " ++ joinSp l := by
  cases l with
  | nil => exact absurd rfl h
  | cons b m => rfl

theorem joinSp_append (xs ys : List String) (hx : xs ≠ []) (hy : ys ≠ []) :
    joinSp (xs ++ ys) = joinSp xs ++ " " ++ joinSp ys := by
  induction xs with
  | nil => exact absurd rfl hx
  | cons a xs ih =>
    cases xs with
    | nil => simpa using joinSp_cons a ys hy
    | cons b m =>
      rw [List.cons_append, joinSp_cons a (b :: m ++ ys) (by simp),
        ih (by simp), joinSp_cons a (b :: m) (by simp)]
      simp [String.append_assoc]

/-- The `lines` accumulator is only ever appended to. -/
theorem wrapGo_factor (W : String → Nat) (maxW : Nat) :
    ∀ (ws lines cur : List String),
      wrapGo W maxW ws lines cur = lines ++ wrapGo W maxW ws [] cur := by
  intro ws
  induction ws with
  | nil =>
    intro lines cur
    by_cases h : cur = [] <;> simp [wrapGo, h]
  | cons w ws ih =>
    intro lines cur
    by_cases h1 : W (joinSp (cur ++ [w])) ≤ maxW
    · simp only [wrapGo, if_pos h1]
      exact ih lines (cur ++ [w])
    · by_cases h2 : cur = []
      · simp only [wrapGo, if_neg h1, if_pos h2]
        exact ih lines [w]
      · simp only [wrapGo, if_neg h1, if_neg h2]
        rw [ih (lines ++ [joinSp cur]) [w], ih ([] ++ [joinSp cur]) [w]]
        simp

theorem wrapGo_ne_nil (W : String → Nat) (maxW : Nat) :
    ∀ (ws cur : List String), cur ≠ [] → wrapGo W maxW ws [] cur ≠ [] := by
  intro ws
  induction ws with
  | nil => intro cur h; simp [wrapGo, h]
  | cons w ws ih =>
    intro cur h
    by_cases h1 : W (joinSp (cur ++ [w])) ≤ maxW
    · simp only [wrapGo, if_pos h1]
      exact ih (cur ++ [w]) (by simp)
    · simp only [wrapGo, if_neg h1, if_neg h]
      rw [wrapGo_factor]
      simp

theorem joinSp_wrapGo (W : String → Nat) (maxW : Nat) :
    ∀ (ws cur : List String), cur ≠ [] →
      joinSp (wrapGo W maxW ws [] cur) = joinSp (cur ++ ws) := by
  intro ws
  induction ws with
  | nil => intro cur h; simp [wrapGo, h]
  | cons w ws ih =>
    intro cur h
    by_cases h1 : W (joinSp (cur ++ [w])) ≤ maxW
    · simp only [wrapGo, if_pos h1]
      rw [ih (cur ++ [w]) (by simp), List.append_assoc]
      rfl
    · simp only [wrapGo, if_neg h1, if_neg h]
      rw [wrapGo_factor]
      simp only [List.nil_append, List.singleton_append]
      rw [joinSp_cons (joinSp cur) _ (wrapGo_ne_nil W maxW ws [w] (by simp)),
        ih [w] (by simp)]
      simp only [List.singleton_append]
      rw [joinSp_append cur (w :: ws) h (by simp)]

/-- Joining the wrapped lines restores the space-joined word list,
whatever the width measure and limit are. -/
theorem joinSp_wrapWords (W : String → Nat) (maxW : Nat) (ws : List String) :
    joinSp (wrapWords W maxW ws) = joinSp ws := by
  cases ws with
  | nil => rfl
  | cons w ws =>
    show joinSp (wrapGo W maxW (w :: ws) [] []) = _
    have hsplit : wrapGo W maxW (w :: ws) [] [] = wrapGo W maxW ws [] [w] := by
      by_cases h1 : W (joinSp ([] ++ [w])) ≤ maxW
      · simp only [wrapGo, if_pos h1]; rfl
      · simp only [wrapGo, if_neg h1]; rfl
    rw [hsplit, joinSp_wrapGo W maxW ws [w] (by simp)]
    rfl

/-- C3: the word-wrap routine is lossless — joining the returned lines
with single spaces reconstructs the whitespace-normalized input, for
every input text, width measure, and maximum width. -/
theorem wrap_lossless (W : String → Nat) (maxW : Nat) (text : String) :
    joinSp (wrapWords W maxW (pySplit text)) = normalizeWs text :=
  joinSp_wrapWords W maxW (pySplit text)

/-- Soundness invariant of the wrap loop: provided every already-closed
line is within budget or is a single input word, and the open line is
empty, a single input word, or within budget, every emitted line is
within budget or is a single input word. -/
theorem wrapGo_mem (W : String → Nat) (maxW : Nat) (A : List String) :
    ∀ (ws lines cur : List String),
      (∀ l ∈ lines, W l ≤ maxW ∨ l ∈ A) →
      (cur = [] ∨ (∃ w ∈ A, cur = [w]) ∨ W (joinSp cur) ≤ maxW) →
      (∀ w ∈ ws, w ∈ A) →
      ∀ l ∈ wrapGo W maxW ws lines cur, W l ≤ maxW ∨ l ∈ A := by
  intro ws
  induction ws with
  | nil =>
    intro lines cur hlines hcur _ l hl
    by_cases h : cur = []
    · rw [wrapGo, if_pos h] at hl
      exact hlines l hl
    · rw [wrapGo, if_neg h] at hl
      rcases List.mem_append.1 hl with hmem | hmem
      · exact hlines l hmem
      · rcases hcur with rfl | ⟨w, hwA, rfl⟩ | hle
        · exact absurd rfl h
        · right
          simpa [joinSp] using List.mem_singleton.1 hmem ▸ hwA
        · left
          rw [List.mem_singleton.1 hmem]
          exact hle
  | cons w ws ih =>
    intro lines cur hlines hcur hws l hl
    by_cases h1 : W (joinSp (cur ++ [w])) ≤ maxW
    · rw [wrapGo, if_pos h1] at hl
      exact ih lines (cur ++ [w]) hlines (Or.inr (Or.inr h1))
        (fun v hv => hws v (List.mem_cons_of_mem w hv)) l hl
    · by_cases h2 : cur = []
      · rw [wrapGo, if_neg h1, if_pos h2] at hl
        exact ih lines [w] hlines
          (Or.inr (Or.inl ⟨w, hws w (List.mem_cons_self w ws), rfl⟩))
          (fun v hv => hws v (List.mem_cons_of_mem w hv)) l hl
      · rw [wrapGo, if_neg h1, if_neg h2] at hl
        refine ih (lines ++ [joinSp cur]) [w] ?_
          (Or.inr (Or.inl ⟨w, hws w (List.mem_cons_self w ws), rfl⟩))
          (fun v hv => hws v (List.mem_cons_of_mem w hv)) l hl
        intro l' hl'
        rcases List.mem_append.1 hl' with hmem | hmem
        · exact hlines l' hmem
        · rcases hcur with rfl | ⟨v, hvA, rfl⟩ | hle
          · exact absurd rfl h2
          · right
            simpa [joinSp] using List.mem_singleton.1 hmem ▸ hvA
          · left
            rw [List.mem_singleton.1 hmem]
            exact hle

/-- C4: every line the word-wrap routine returns measures at most
`maxW`, except possibly a line that is a single input word placed alone
(never split mid-word); only such an oversized word may exceed the
budget. -/
theorem wrap_width_bound (W : String → Nat) (maxW : Nat) (text : String) :
    ∀ l ∈ wrapWords W maxW (pySplit text), W l ≤ maxW ∨ l ∈ pySplit text :=
  wrapGo_mem W maxW (pySplit text) (pySplit text) [] []
    (by intro l hl; simp at hl) (Or.inl rfl) (fun _ h => h)

/-- Witness for C4 at a concrete input: with character-count width and
budget 3, the oversized word "abcdefg" is a returned line, and the
theorem classifies it. -/
theorem wrap_width_bound_witness :
    String.length "abcdefg" ≤ 3 ∨ "abcdefg" ∈ pySplit "abcdefg hi" :=
  wrap_width_bound String.length 3 "abcdefg hi" "abcdefg" (by decide)

/-! ## Task-text truncation (create_task_module, lines 345-351) -/

/-- The lines actually drawn for one task card: the loop
`for i, line in enumerate(lines[:2])` with
`if i == 1 and len(lines) > 2: line = line + "..."`. -/
def renderedTaskLines (lines : List String) : List String :=
  (lines.take 2).enum.map
    (fun p => if p.1 = 1 ∧ 2 < lines.length then p.2 ++ "..." else p.2)

theorem renderedTaskLines_of_gt (a b c : String) (rest : List String) :
    renderedTaskLines (a :: b :: c :: rest) = [a, b ++ "..."] := by
  unfold renderedTaskLines
  have hlen : 2 < (a :: b :: c :: rest).length := by
    simp only [List.length_cons]
    omega
  simp [List.enum, List.enumFrom, hlen]

theorem renderedTaskLines_of_le (lines : List String) (h : lines.length ≤ 2) :
    renderedTaskLines lines = lines := by
  match lines with
  | [] => rfl
  | [a] => simp [renderedTaskLines, List.enum, List.enumFrom]
  | [a, b] => simp [renderedTaskLines, List.enum, List.enumFrom]
  | a :: b :: c :: rest => simp [List.length_cons] at h

/-- C7: with the maximum line count 2 used for task cards, a wrap
result of more than 2 lines is rendered as exactly the first 2 lines
with the ellipsis marker at the tail of the second; a wrap result of at
most 2 lines is rendered unmodified, with no ellipsis. -/
theorem task_lines_truncation (W : String → Nat) (maxW : Nat) (text : String) :
    (2 < (wrapWords W maxW (pySplit text)).length →
      renderedTaskLines (wrapWords W maxW (pySplit text)) =
        [(wrapWords W maxW (pySplit text)).headD "",
         ((wrapWords W maxW (pySplit text)).getD 1 "") ++ "..."]) ∧
    ((wrapWords W maxW (pySplit text)).length ≤ 2 →
      renderedTaskLines (wrapWords W maxW (pySplit text)) =
        wrapWords W maxW (pySplit text)) := by
  constructor
  · intro hgt
    match hl : wrapWords W maxW (pySplit text) with
    | [] => rw [hl] at hgt; simp at hgt
    | [a] => rw [hl] at hgt; simp at hgt
    | [a, b] => rw [hl] at hgt; simp at hgt
    | a :: b :: c :: rest => simp [renderedTaskLines_of_gt]
  · exact renderedTaskLines_of_le (wrapWords W maxW (pySplit text))

/-- Witness for C7 at a concrete input: wrapping "a b c" at width 1
with character-count measure yields three lines, and the rendered card
shows two lines with the ellipsis appended to the second. -/
theorem task_lines_truncation_witness :
    renderedTaskLines (wrapWords String.length 1 (pySplit "a b c")) =
      [(wrapWords String.length 1 (pySplit "a b c")).headD "",
       ((wrapWords String.length 1 (pySplit "a b c")).getD 1 "") ++ "..."] :=
  (task_lines_truncation String.length 1 "a b c").1 (by decide)

/-! ## Progress fraction (create_task_module, lines 353-371) -/

/-- `completed_count = sum(1 for t in tasks if t['completed'])`
(create_wallpaper, line 496). -/
def completedCount (tasks : List Task) : Nat :=
  tasks.countP (fun t => t.completed)

/-- The progress-bar fill fraction of `create_task_module`: the fill
rectangle is drawn with `progress = completed_count / total_count` only
under the guard `if total_count > 0`; with no fill drawn the fraction
is 0.  Python's true division is embedded in `ℚ`. -/
def progressFraction (tasks : List Task) : ℚ :=
  if 0 < tasks.length then (completedCount tasks : ℚ) / (tasks.length : ℚ) else 0

/-- C9: the fill fraction is `completed / total` whenever the task list
is nonempty — equivalently, fraction × total recovers the completed
count, so the division is only ever taken with a positive divisor — and
it is 0 for an empty task list; in particular 0 of 0 gives 0 and 3 of 4
gives 0.75. -/
theorem progress_fraction_safe :
    (∀ tasks : List Task,
      (tasks.length = 0 → progressFraction tasks = 0) ∧
      (0 < tasks.length →
        progressFraction tasks * (tasks.length : ℚ) = (completedCount tasks : ℚ))) ∧
    progressFraction [] = 0 ∧
    progressFraction [⟨"a", true⟩, ⟨"b", true⟩, ⟨"c", true⟩, ⟨"d", false⟩] = 0.75 := by
  refine ⟨fun tasks => ⟨fun h0 => ?_, fun hpos => ?_⟩, ?_, ?_⟩
  · simp [progressFraction, h0]
  · have hne : (tasks.length : ℚ) ≠ 0 := by
      exact_mod_cast Nat.pos_iff_ne_zero.1 hpos
    rw [progressFraction, if_pos hpos, div_mul_cancel₀ _ hne]
  · rfl
  · norm_num [progressFraction, completedCount, List.countP, List.countP.go]

/-- Witness for C9 at a concrete input: a singleton completed task list
has fraction × total = completed count. -/
theorem progress_fraction_safe_witness :
    progressFraction [⟨"a", true⟩] * (([⟨"a", true⟩] : List Task).length : ℚ) =
      (completedCount [⟨"a", true⟩] : ℚ) :=
  (progress_fraction_safe.1 [⟨"a", true⟩]).2 (by decide)

/-! ## Debounce (TodoFileHandler, lines 628-640) -/

/-- The watcher state: `self.last_modified`, the time of the last
honored trigger (initially 0).  Time is `time.time()` seconds,
embedded in `ℚ`. -/
structure HandlerState where
  last_modified : ℚ
deriving DecidableEq

/-- `TodoFileHandler.on_modified`: if the event is for `todo.txt` and
more than 1 second has passed since the last honored trigger, run a
render cycle (returned flag) and record the time; otherwise do nothing
— the event is dropped, not queued. -/
def on_modified (isTodoFile : Bool) (now : ℚ) (s : HandlerState) :
    HandlerState × Bool :=
  if isTodoFile = true ∧ 1 < now - s.last_modified then (⟨now⟩, true) else (s, false)

/-- Number of render cycles performed while feeding a sequence of
timestamped `todo.txt` change events through the handler. -/
def renderCount : List ℚ → HandlerState → Nat
  | [], _ => 0
  | t :: ts, s =>
    (if (on_modified true t s).2 then 1 else 0) + renderCount ts (on_modified true t s).1

/-- C6: two `todo.txt` change events that arrive within the 1-second
debounce window cause at most one render cycle, and exactly one when
the first event is itself outside the window of the previous honored
trigger; the second event is coalesced — it leaves the handler state
unchanged and is not queued. -/
theorem on_modified_fires (now : ℚ) (s : HandlerState)
    (h : 1 < now - s.last_modified) : on_modified true now s = (⟨now⟩, true) := by
  rw [on_modified, if_pos ⟨rfl, h⟩]

theorem on_modified_skips (now : ℚ) (s : HandlerState)
    (h : ¬1 < now - s.last_modified) : on_modified true now s = (s, false) := by
  rw [on_modified, if_neg]
  rintro ⟨-, hh⟩
  exact h hh

theorem debounce_coalesces (s : HandlerState) (t1 t2 : ℚ)
    (hwin : t2 - t1 ≤ 1) :
    renderCount [t1, t2] s ≤ 1 ∧
    (1 < t1 - s.last_modified →
      renderCount [t1, t2] s = 1 ∧ on_modified true t2 ⟨t1⟩ = (⟨t1⟩, false)) := by
  have hsecond : on_modified true t2 ⟨t1⟩ = (⟨t1⟩, false) :=
    on_modified_skips t2 ⟨t1⟩ (by simpa using not_lt.2 hwin)
  by_cases h1 : 1 < t1 - s.last_modified
  · have e1 := on_modified_fires t1 s h1
    have hcount : renderCount [t1, t2] s = 1 := by
      simp [renderCount, e1, hsecond]
    exact ⟨le_of_eq hcount, fun _ => ⟨hcount, hsecond⟩⟩
  · have e1 := on_modified_skips t1 s h1
    refine ⟨?_, fun hf => absurd hf h1⟩
    by_cases h2 : 1 < t2 - s.last_modified
    · simp [renderCount, e1, on_modified_fires t2 s h2]
    · simp [renderCount, e1, on_modified_skips t2 s h2]

theorem fifth_past_two_in_window : (11 : ℚ) / 5 - 2 ≤ 1 := by norm_num

theorem two_past_zero_outside_window :
    1 < (2 : ℚ) - (⟨0⟩ : HandlerState).last_modified := by norm_num

/-- Witness for C6 at a concrete input: previous trigger at time 0,
events at 2 and 2.2 seconds — one render, state pinned at 2. -/
theorem debounce_coalesces_witness :
    renderCount [2, 11/5] ⟨0⟩ = 1 ∧
      on_modified true (11/5) ⟨2⟩ = (⟨2⟩, false) :=
  (debounce_coalesces ⟨0⟩ 2 (11/5) fifth_past_two_in_window).2
    two_past_zero_outside_window

/-! ## The task-list fingerprint: Python `str(tasks)`
(create_wallpaper, line 402)

`create_wallpaper` fingerprints the task list with `str(tasks)`, the
Python printed form of the list of dicts.  We embed it faithfully up to
string-repr details: Python `repr` of the text is modelled as a
single-quoted form escaping backslashes and quotes (Python additionally
escapes control characters and may switch to double quotes; both forms
are injective encodings, so equality and inequality of fingerprints —
the only use the source makes of them — are preserved). -/

/-- Escape one character as inside a single-quoted string repr. -/
def escChar (c : Char) : List Char :=
  if c = '\\' then ['\\', '\\']
  else if c = '\'' then ['\\', '\'']
  else [c]

/-- Escape a whole string body. -/
def escList (s : List Char) : List Char :=
  s.flatMap escChar

/-- Characters of the Python repr of a string: quote, escaped body,
quote. -/
def pyReprChars (s : List Char) : List Char :=
  '\'' :: (escList s ++ ['\''])

/-- Characters of Python `str(True)` / `str(False)`. -/
def boolChars (b : Bool) : List Char :=
  if b then "True".data else "False".data

/-- Characters of the Python str of one task dict:
`\x7b'text': <repr>, 'completed': <bool>\x7d` (insertion order follows
`parse_todo_file`'s construction). -/
def taskChars (t : Task) : List Char :=
  "\x7b'text': ".data ++ pyReprChars t.text.data ++
    ", 'completed': ".data ++ boolChars t.completed ++ ['\x7d']

/-- Python `", ".join` at the character level. -/
def joinCommaChars : List (List Char) → List Char
  | [] => []
  | [x] => x
  | x :: xs => x ++ ", ".data ++ joinCommaChars xs

/-- Python `str(tasks)`: the fingerprint string computed and compared
in `create_wallpaper`. -/
def pyStrTasks (tasks : List Task) : String :=
  String.mk ('[' :: (joinCommaChars (tasks.map taskChars) ++ [']']))

/-! Injectivity of the fingerprint, by exhibiting a decoder. -/

/-- Decode an escaped single-quoted string body: consume characters up
to the first unescaped quote, returning the body and the rest. -/
def unesc : List Char → Option (List Char × List Char)
  | [] => none
  | [c] => if c = '\'' then some ([], []) else none
  | c :: d :: rest =>
    if c = '\\' then (unesc rest).map (fun p => (d :: p.1, p.2))
    else if c = '\'' then some ([], d :: rest)
    else (unesc (d :: rest)).map (fun p => (c :: p.1, p.2))

/-- Consume an expected literal prefix. -/
def stripPre : List Char → List Char → Option (List Char)
  | [], s => some s
  | _ :: _, [] => none
  | p :: ps, c :: cs => if p = c then stripPre ps cs else none

/-- Decode one task chunk of the fingerprint, returning the task and
the remaining characters. -/
def parseTaskChars (s : List Char) : Option (Task × List Char) := do
  let s1 ← stripPre "\x7b'text': '".data s
  let (txt, s2) ← unesc s1
  let s3 ← stripPre ", 'completed': ".data s2
  match s3 with
  | 'T' :: s4 =>
    let s5 ← stripPre "rue\x7d".data s4
    pure (⟨String.mk txt, true⟩, s5)
  | 'F' :: s4 =>
    let s5 ← stripPre "alse\x7d".data s4
    pure (⟨String.mk txt, false⟩, s5)
  | _ => none

/-- Decode a nonempty comma-joined sequence of task chunks followed by
the closing bracket. -/
def parseTasksAux : Nat → List Char → Option (List Task)
  | 0, _ => none
  | fuel + 1, s => do
    let (t, s1) ← parseTaskChars s
    match s1 with
    | [']'] => pure [t]
    | ',' :: ' ' :: s2 =>
      let ts ← parseTasksAux fuel s2
      pure (t :: ts)
    | _ => none

/-- Decode a whole fingerprint string back into a task list. -/
def parseTasksStr (s : String) : Option (List Task) :=
  match s.data with
  | '[' :: s2 => if s2 = [']'] then some [] else parseTasksAux s2.length s2
  | _ => none

theorem escList_nil : escList [] = [] := rfl

theorem escList_cons (c : Char) (s : List Char) :
    escList (c :: s) = escChar c ++ escList s := by
  simp [escList]

theorem unesc_quote (rest : List Char) : unesc ('\'' :: rest) = some ([], rest) := by
  cases rest with
  | nil => simp [unesc]
  | cons d r =>
    have hq : ¬('\'' : Char) = '\\' := by decide
    rw [unesc, if_neg hq, if_pos rfl]

theorem unesc_slash (d : Char) (rest : List Char) :
    unesc ('\\' :: d :: rest) = (unesc rest).map (fun p => (d :: p.1, p.2)) := by
  rw [unesc, if_pos rfl]

theorem unesc_other (c : Char) (rest : List Char) (h1 : ¬c = '\\') (h2 : ¬c = '\'') :
    unesc (c :: rest) = (unesc rest).map (fun p => (c :: p.1, p.2)) := by
  cases rest with
  | nil =>
    rw [show unesc [c] = if c = '\'' then some ([], []) else none from rfl, if_neg h2]
    rfl
  | cons d r => rw [unesc, if_neg h1, if_neg h2]

theorem unesc_escList (s : List Char) :
    ∀ rest, unesc (escList s ++ '\'' :: rest) = some (s, rest) := by
  induction s with
  | nil =>
    intro rest
    rw [escList_nil, List.nil_append, unesc_quote]
  | cons c s ih =>
    intro rest
    rw [escList_cons]
    by_cases h1 : c = '\\'
    · subst h1
      have he : escChar '\\' = ['\\', '\\'] := by decide
      rw [he]
      simp only [List.cons_append, List.nil_append, List.append_assoc]
      rw [unesc_slash, ih rest, Option.map_some']
    · by_cases h2 : c = '\''
      · subst h2
        have he : escChar '\'' = ['\\', '\''] := by decide
        rw [he]
        simp only [List.cons_append, List.nil_append, List.append_assoc]
        rw [unesc_slash, ih rest, Option.map_some']
      · have he : escChar c = [c] := by rw [escChar, if_neg h1, if_neg h2]
        rw [he]
        simp only [List.cons_append, List.nil_append, List.append_assoc]
        rw [unesc_other c _ h1 h2, ih rest, Option.map_some']

theorem stripPre_append (p : List Char) :
    ∀ s, stripPre p (p ++ s) = some s := by
  induction p with
  | nil => intro s; rfl
  | cons c p ih => intro s; simp [stripPre, ih s]

theorem parseTaskChars_round (t : Task) (rest : List Char) :
    parseTaskChars (taskChars t ++ rest) = some (t, rest) := by
  have hdec : taskChars t ++ rest =
      "\x7b'text': '".data ++
        (escList t.text.data ++ '\'' ::
          (", 'completed': ".data ++ (boolChars t.completed ++ '\x7d' :: rest))) := by
    have hlit : "\x7b'text': '".data = "\x7b'text': ".data ++ ['\''] := by decide
    simp [taskChars, pyReprChars, hlit, List.append_assoc]
  rw [hdec]
  cases t with
  | mk text completed =>
    cases completed with
    | true =>
      simp [parseTaskChars, stripPre, unesc_escList, boolChars]
    | false =>
      simp [parseTaskChars, stripPre, unesc_escList, boolChars]

theorem taskChars_length_pos (t : Task) : 0 < (taskChars t).length := by
  simp [taskChars]

theorem length_le_joinCommaChars (tasks : List Task) :
    tasks.length ≤ (joinCommaChars (tasks.map taskChars)).length := by
  induction tasks with
  | nil => simp [joinCommaChars]
  | cons t ts ih =>
    cases ts with
    | nil =>
      simpa [joinCommaChars] using taskChars_length_pos t
    | cons t2 ts2 =>
      have step : joinCommaChars ((t :: t2 :: ts2).map taskChars) =
          taskChars t ++ ", ".data ++ joinCommaChars ((t2 :: ts2).map taskChars) := by
        simp [joinCommaChars]
      rw [step]
      simp only [List.length_append, List.length_cons]
      have h1 := taskChars_length_pos t
      have h2 := ih
      simp only [List.length_cons] at h2 ⊢
      omega

theorem parseTasksAux_round (tasks : List Task) :
    ∀ fuel, tasks ≠ [] → tasks.length ≤ fuel →
      parseTasksAux fuel (joinCommaChars (tasks.map taskChars) ++ [']']) =
        some tasks := by
  induction tasks with
  | nil => intro fuel h; exact absurd rfl h
  | cons t ts ih =>
    intro fuel _ hfuel
    match fuel, hfuel with
    | f + 1, hf =>
      cases ts with
      | nil =>
        have hjoin : joinCommaChars ([t].map taskChars) = taskChars t := by
          simp [joinCommaChars]
        rw [hjoin]
        simp [parseTasksAux, parseTaskChars_round t [']']]
      | cons t2 ts2 =>
        have hjoin : joinCommaChars ((t :: t2 :: ts2).map taskChars) ++ [']'] =
            taskChars t ++
              (',' :: ' ' :: (joinCommaChars ((t2 :: ts2).map taskChars) ++ [']'])) := by
          have hcm : ", ".data = [',', ' '] := by decide
          simp [joinCommaChars, hcm]
        rw [hjoin]
        have hrec := ih f (by simp)
          (by simp only [List.length_cons] at hf ⊢; omega)
        simp only [List.map_cons] at hrec
        simp [parseTasksAux, parseTaskChars_round t, hrec]

theorem parseTasksStr_round (tasks : List Task) :
    parseTasksStr (pyStrTasks tasks) = some tasks := by
  cases tasks with
  | nil => rfl
  | cons t ts =>
    have hred : parseTasksStr (pyStrTasks (t :: ts)) =
        (if joinCommaChars ((t :: ts).map taskChars) ++ [']'] = [']'] then some []
         else parseTasksAux (joinCommaChars ((t :: ts).map taskChars) ++ [']']).length
           (joinCommaChars ((t :: ts).map taskChars) ++ [']'])) := rfl
    rw [hred]
    have hlen := length_le_joinCommaChars (t :: ts)
    have hne : joinCommaChars ((t :: ts).map taskChars) ++ [']'] ≠ [']'] := by
      intro hcontra
      have : (joinCommaChars ((t :: ts).map taskChars) ++ [']']).length = 1 := by
        rw [hcontra]; rfl
      simp only [List.length_append, List.length_singleton] at this
      have hpos : 0 < (joinCommaChars ((t :: ts).map taskChars)).length := by
        have := taskChars_length_pos t
        simp only [List.length_cons] at hlen
        omega
      omega
    rw [if_neg hne]
    apply parseTasksAux_round (t :: ts) _ (by simp)
    simp only [List.length_append, List.length_singleton, List.length_cons]
    simp only [List.length_cons] at hlen
    omega

/-- The fingerprint is injective: distinct task lists (any difference
in a task's text or completed flag, or in the number of tasks) have
distinct fingerprints. -/
theorem pyStrTasks_inj {ts1 ts2 : List Task} (h : pyStrTasks ts1 = pyStrTasks ts2) :
    ts1 = ts2 := by
  have h1 := parseTasksStr_round ts1
  rw [h, parseTasksStr_round ts2] at h1
  exact (Option.some.inj h1).symm

/-! ## AI image generation and its cache
(generate_ai_image, lines 234-268; create_wallpaper, lines 375-559) -/

/-- Outcome of the external image-generation call (network error,
invalid parameter, content-policy rejection, authentication failure
and any other exception are all `fail`: the `except` clause catches
`Exception`). -/
inductive GenOutcome where
  | ok : GenOutcome
  | fail : GenOutcome
deriving DecidableEq

/-- The generator's mutable cache state: `self.last_content` (the
fingerprint stored at the end of the refresh branch, initially None),
`self.last_ai_image` (the cached AI image path, initially None), and
whether the AI image cache file exists on disk. -/
structure AIState where
  last_content : Option String
  last_ai_image : Option String
  aiFileOnDisk : Bool
deriving DecidableEq

/-- `generate_ai_image` (lines 234-268) as a function of the external
call's outcome.  Returns the returned path, whether the cache file is
on disk afterwards, and how many external image-generation calls were
made.  With no OpenAI client or an empty task list it returns None
without calling; on success the decoded payload is written to the
cache file and its path returned; on any failure the exception is
caught, an error is printed, and None is returned (nothing written). -/
def generate_ai_image (hasClient : Bool) (tasks : List Task) (outcome : GenOutcome)
    (fileOnDisk : Bool) : Option String × Bool × Nat :=
  if hasClient = false ∨ tasks = [] then (none, fileOnDisk, 0)
  else
    match outcome with
    | .ok => (some "ai_todo_image.png", true, 1)
    | .fail => (none, fileOnDisk, 1)

/-- The cache-checked AI refresh step of `create_wallpaper` (lines
400-407): fingerprint the tasks with `str(tasks)`; when the
fingerprint differs from `last_content` or the cache file does not
exist, call `generate_ai_image`, adopt the returned path if any, and
store the new fingerprint (even when generation returned nothing);
otherwise do nothing.  Returns the new state and the external call
count. -/
def aiRefreshStep (hasClient : Bool) (outcome : GenOutcome) (tasks : List Task)
    (s : AIState) : AIState × Nat :=
  if s.last_content ≠ some (pyStrTasks tasks) ∨ s.aiFileOnDisk = false then
    ({ last_content := some (pyStrTasks tasks),
       last_ai_image :=
         match (generate_ai_image hasClient tasks outcome s.aiFileOnDisk).1 with
         | some p => some p
         | none => s.last_ai_image,
       aiFileOnDisk := (generate_ai_image hasClient tasks outcome s.aiFileOnDisk).2.1 },
     (generate_ai_image hasClient tasks outcome s.aiFileOnDisk).2.2)
  else (s, 0)

/-- What one render produced: which AI image (if any) was composited,
and that the wallpaper file was saved. -/
structure RenderResult where
  usedImage : Option String
  saved : Bool
deriving DecidableEq

/-- `create_wallpaper` (lines 375-559) reduced to its cache-relevant
skeleton: when AI images are enabled run the refresh step, composite
the cached AI image when its path is set and the file exists (lines
409-452), and always save the wallpaper at the end (line 559). -/
def create_wallpaper (useAI hasClient : Bool) (outcome : GenOutcome) (tasks : List Task)
    (s : AIState) : AIState × RenderResult :=
  if useAI = true then
    ((aiRefreshStep hasClient outcome tasks s).1,
     { usedImage :=
         if (aiRefreshStep hasClient outcome tasks s).1.last_ai_image ≠ none ∧
            (aiRefreshStep hasClient outcome tasks s).1.aiFileOnDisk = true then
           (aiRefreshStep hasClient outcome tasks s).1.last_ai_image
         else none,
       saved := true })
  else (s, { usedImage := none, saved := true })

theorem generate_fail_none (hasClient : Bool) (tasks : List Task) (d : Bool) :
    (generate_ai_image hasClient tasks .fail d).1 = none := by
  rw [generate_ai_image]
  split
  · rfl
  · rfl

theorem aiRefreshStep_miss (hasClient : Bool) (outcome : GenOutcome)
    (tasks : List Task) (s : AIState)
    (h1 : s.last_content = some (pyStrTasks tasks)) (h2 : s.aiFileOnDisk = true) :
    aiRefreshStep hasClient outcome tasks s = (s, 0) := by
  rw [aiRefreshStep, if_neg]
  rintro (hc | hd)
  · exact hc h1
  · rw [h2] at hd
    exact absurd hd (by decide)

theorem aiRefreshStep_hit_ok (tasks : List Task) (s : AIState)
    (hne : tasks ≠ [])
    (hcond : s.last_content ≠ some (pyStrTasks tasks) ∨ s.aiFileOnDisk = false) :
    aiRefreshStep true .ok tasks s =
      (⟨some (pyStrTasks tasks), some "ai_todo_image.png", true⟩, 1) := by
  rw [aiRefreshStep, if_pos hcond]
  simp [generate_ai_image, hne]

theorem aiRefreshStep_hit_fail (tasks : List Task) (s : AIState)
    (hne : tasks ≠ [])
    (hcond : s.last_content ≠ some (pyStrTasks tasks) ∨ s.aiFileOnDisk = false) :
    aiRefreshStep true .fail tasks s =
      (⟨some (pyStrTasks tasks), s.last_ai_image, s.aiFileOnDisk⟩, 1) := by
  rw [aiRefreshStep, if_pos hcond]
  simp [generate_ai_image, hne]

theorem aiRefreshStep_calls_iff (tasks : List Task) (s : AIState)
    (o : GenOutcome) (hne : tasks ≠ []) :
    (aiRefreshStep true o tasks s).2 = 1 ↔
      (s.last_content ≠ some (pyStrTasks tasks) ∨ s.aiFileOnDisk = false) := by
  by_cases hcond : s.last_content ≠ some (pyStrTasks tasks) ∨ s.aiFileOnDisk = false
  · cases o
    · rw [aiRefreshStep_hit_ok tasks s hne hcond]
      simpa using hcond
    · rw [aiRefreshStep_hit_fail tasks s hne hcond]
      simpa using hcond
  · push_neg at hcond
    rw [aiRefreshStep_miss true o tasks s hcond.1 (by
      cases hd : s.aiFileOnDisk
      · exact absurd hd hcond.2
      · rfl)]
    simp only [not_or, not_not] at *
    constructor
    · intro h01
      exact absurd h01 one_ne_zero.symm
    · rintro (hc | hd)
      · exact absurd hcond.1 hc
      · exact absurd hd hcond.2

/-- C1: starting from a state that has not yet seen this task list's
fingerprint but has the cache file on disk, the cache-checked refresh
step calls the external generator exactly once for the first
invocation, zero times for a second invocation with the same task
list, and once more for any task list differing in any task's text or
completed flag (or length).  In general, with a client configured and
a nonempty task list, regeneration is attempted exactly when the
fingerprint differs from the stored `last_content` or no cache file
exists. -/
theorem ai_image_cache_checked
    (tasks : List Task) (s0 : AIState) (o1 o2 : GenOutcome)
    (hne : tasks ≠ []) (hdisk : s0.aiFileOnDisk = true)
    (hfp : s0.last_content ≠ some (pyStrTasks tasks)) :
    (aiRefreshStep true o1 tasks s0).2 = 1 ∧
    (aiRefreshStep true o2 tasks (aiRefreshStep true o1 tasks s0).1).2 = 0 ∧
    (∀ (tasks' : List Task) (o3 : GenOutcome), tasks' ≠ tasks → tasks' ≠ [] →
      (aiRefreshStep true o3 tasks'
        (aiRefreshStep true o2 tasks (aiRefreshStep true o1 tasks s0).1).1).2 = 1) ∧
    (∀ (ts : List Task) (s : AIState) (o : GenOutcome), ts ≠ [] →
      ((aiRefreshStep true o ts s).2 = 1 ↔
        (s.last_content ≠ some (pyStrTasks ts) ∨ s.aiFileOnDisk = false))) := by
  have hcond : s0.last_content ≠ some (pyStrTasks tasks) ∨ s0.aiFileOnDisk = false :=
    Or.inl hfp
  have hs1 : (aiRefreshStep true o1 tasks s0).1.last_content = some (pyStrTasks tasks) ∧
      (aiRefreshStep true o1 tasks s0).1.aiFileOnDisk = true ∧
      (aiRefreshStep true o1 tasks s0).2 = 1 := by
    cases o1
    · rw [aiRefreshStep_hit_ok tasks s0 hne hcond]
      exact ⟨rfl, rfl, rfl⟩
    · rw [aiRefreshStep_hit_fail tasks s0 hne hcond]
      exact ⟨rfl, hdisk, rfl⟩
  have hmiss := aiRefreshStep_miss true o2 tasks (aiRefreshStep true o1 tasks s0).1
    hs1.1 hs1.2.1
  refine ⟨hs1.2.2, by rw [hmiss], ?_, fun ts s o h => aiRefreshStep_calls_iff ts s o h⟩
  intro tasks' o3 hdiff hne'
  have hs2 : (aiRefreshStep true o2 tasks (aiRefreshStep true o1 tasks s0).1).1 =
      (aiRefreshStep true o1 tasks s0).1 := by rw [hmiss]
  rw [hs2]
  rw [aiRefreshStep_calls_iff tasks' _ o3 hne']
  left
  rw [hs1.1]
  intro hcontra
  exact hdiff (pyStrTasks_inj (Option.some.inj hcontra)).symm

/-- Witness for C1 at a concrete input: fresh state with the cache
file present, one task. -/
theorem ai_image_cache_checked_witness :
    (aiRefreshStep true .ok [⟨"a", false⟩] ⟨none, none, true⟩).2 = 1 ∧
    (aiRefreshStep true .ok [⟨"a", false⟩]
      (aiRefreshStep true .ok [⟨"a", false⟩] ⟨none, none, true⟩).1).2 = 0 := by
  have h := ai_image_cache_checked [⟨"a", false⟩] ⟨none, none, true⟩ .ok .ok
    (by decide) rfl (by decide)
  exact ⟨h.1, h.2.1⟩

/-- C5: when the external image-generation call fails,
`generate_ai_image` returns no new image (the exception is caught, not
propagated), the cached `last_ai_image` path is unchanged, and the
render cycle still completes: the wallpaper is composed and saved,
using the previously cached AI image or a plain background. -/
theorem generation_failure_graceful
    (useAI hasClient : Bool) (tasks : List Task) (s : AIState) :
    (generate_ai_image hasClient tasks .fail s.aiFileOnDisk).1 = none ∧
    (create_wallpaper useAI hasClient .fail tasks s).1.last_ai_image = s.last_ai_image ∧
    (create_wallpaper useAI hasClient .fail tasks s).2.saved = true ∧
    ((create_wallpaper useAI hasClient .fail tasks s).2.usedImage = s.last_ai_image ∨
      (create_wallpaper useAI hasClient .fail tasks s).2.usedImage = none) := by
  have hlast : (aiRefreshStep hasClient .fail tasks s).1.last_ai_image =
      s.last_ai_image := by
    rw [aiRefreshStep]
    split
    · simp [generate_fail_none]
    · rfl
  refine ⟨generate_fail_none hasClient tasks s.aiFileOnDisk, ?_, ?_, ?_⟩
  · rw [create_wallpaper]
    split
    · exact hlast
    · rfl
  · rw [create_wallpaper]
    split
    · rfl
    · rfl
  · rw [create_wallpaper]
    split
    · simp only []
      split
      · left
        exact hlast
      · right
        rfl
    · right
      rfl

/-- C10: when generation fails on a refresh triggered purely by a
fingerprint change (the cache file exists on disk), the new
fingerprint is stored anyway, so a following cycle with the same,
unchanged task list makes no further generation attempt: failed
generations are not retried while the content stays the same. -/
theorem failed_generation_not_retried
    (tasks : List Task) (s : AIState) (o2 : GenOutcome)
    (hne : tasks ≠ []) (hdisk : s.aiFileOnDisk = true)
    (hfp : s.last_content ≠ some (pyStrTasks tasks)) :
    (aiRefreshStep true .fail tasks s).2 = 1 ∧
    (aiRefreshStep true .fail tasks s).1.last_content = some (pyStrTasks tasks) ∧
    (aiRefreshStep true o2 tasks (aiRefreshStep true .fail tasks s).1).2 = 0 := by
  have hcond : s.last_content ≠ some (pyStrTasks tasks) ∨ s.aiFileOnDisk = false :=
    Or.inl hfp
  rw [aiRefreshStep_hit_fail tasks s hne hcond]
  refine ⟨rfl, rfl, ?_⟩
  show (aiRefreshStep true o2 tasks
    ⟨some (pyStrTasks tasks), s.last_ai_image, s.aiFileOnDisk⟩).2 = 0
  have hm := aiRefreshStep_miss true o2 tasks
    ⟨some (pyStrTasks tasks), s.last_ai_image, s.aiFileOnDisk⟩ rfl hdisk
  rw [hm]

/-- Witness for C10 at a concrete input. -/
theorem failed_generation_not_retried_witness :
    (aiRefreshStep true .fail [⟨"a", false⟩] ⟨none, some "old.png", true⟩).1.last_content =
      some (pyStrTasks [⟨"a", false⟩]) ∧
    (aiRefreshStep true .ok [⟨"a", false⟩]
      (aiRefreshStep true .fail [⟨"a", false⟩] ⟨none, some "old.png", true⟩).1).2 = 0 := by
  have h := failed_generation_not_retried [⟨"a", false⟩] ⟨none, some "old.png", true⟩ .ok
    (by decide) rfl (by decide)
  exact ⟨h.2.1, h.2.2⟩

end Todo
